import Mathlib

/-!
Verification of the vidsz OpenCV Reader/Writer wrappers.

The Python sources `vidsz/opencv/reader/base_reader.py` and
`vidsz/opencv/writer/base_writer.py` are embedded shallowly:

* `VideoCapture` models the cv2.VideoCapture collaborator as a scripted
  tape of read responses (`some f` = a successful decode of frame `f`,
  `none` = a failed read).  cv2 couples the returned success flag with
  the frame being non-None, so the flag is `isSome` of the response.
* `Reader` carries the mutable attributes of the Python `Reader` object
  (`_is_open`, `_frame_count`, `_batch_size`, `_dynamic_batch`, plus the
  metadata snapshot taken at construction).
* Frames are atoms (`Nat`); the numpy zero-initialised batch slots are
  the value `0`.
* Errors raised by the Writer become `Except.error` with the exact
  message strings of the source.
-/

/-- A decoded frame, abstracted to an atom; `0` is the zero-filled pixel
buffer that `np.zeros` puts in unfilled batch slots. -/
abbrev Frame := Nat

/-- Model of a `cv2.VideoCapture`: a scripted tape of responses to
`read()` and the `isOpened()` flag.  A released or exhausted capture
answers `(False, None)` without consuming anything. -/
structure VideoCapture where
  tape : List (Option Frame)
  opened : Bool
deriving DecidableEq, Repr

/-- `cv2.VideoCapture.read()`: returns `(flag, frame)` and the advanced
capture.  The success flag is coupled to the frame being present. -/
def VideoCapture.read (vc : VideoCapture) : (Bool × Option Frame) × VideoCapture :=
  if vc.opened then
    match vc.tape with
    | [] => ((false, none), vc)
    | x :: rest => ((x.isSome, x), { vc with tape := rest })
  else ((false, none), vc)

/-- `cv2.VideoCapture.release()`. -/
def VideoCapture.release (vc : VideoCapture) : VideoCapture :=
  { vc with opened := false }

/-- Snapshot dictionary built by `Reader._update_info`. -/
structure RInfo where
  name : String
  width : Nat
  height : Nat
  fps : Nat
  backend : String
deriving DecidableEq, Repr

/-- State of a `vidsz.opencv.Reader` object. -/
structure Reader where
  stream : VideoCapture
  isOpenFlag : Bool
  frame_count : Nat
  batch_size : Option Nat
  dynamic_batch : Bool
  name : String
  width : Nat
  height : Nat
  fps : Nat
  info : RInfo
deriving DecidableEq, Repr

/-- `Reader.is_open`: the stream reports opened AND the `_is_open`
attribute (status of the last read) is set. -/
def Reader.is_open (r : Reader) : Bool :=
  r.stream.opened && r.isOpenFlag

/-- `Reader.read_frame`: one `cv2` read; the counter is bumped exactly
when a frame came back, `_is_open` is overwritten with the flag. -/
def Reader.read_frame (r : Reader) : Option Frame × Reader :=
  let res := r.stream.read
  (res.1.2,
   { r with stream := res.2,
            frame_count := r.frame_count + (match res.1.2 with | none => 0 | some _ => 1),
            isOpenFlag := res.1.1 })

/-- The `for i in range(batch_size)` loop body of `Reader.read_batch`.
`i` is the Python loop index, `k = bs - i` the remaining iterations
(structural fuel).  On a failed read the loop breaks and the returned
bound is `i` — this is Python's `i -= 1; break` followed by the
`batch[:i + 1]` slice.  On normal completion the bound is `bs`
(Python's final `i = bs - 1` plus one). -/
def Reader.fillAux (r : Reader) (batch : List Frame) (i bs k : Nat) :
    List Frame × Nat × Reader :=
  match k with
  | 0 => (batch, bs, r)
  | k + 1 =>
    let res := r.read_frame
    match res.1 with
    | none => (batch, i, res.2)
    | some f => res.2.fillAux (batch.set i f) (i + 1) bs k

/-- `Reader.read_batch`: guard on `is_open`, pre-allocate a zeroed
batch, run the fill loop, and truncate to the filled bound only in
dynamic mode. -/
def Reader.read_batch (r : Reader) : Option (List Frame) × Reader :=
  if r.is_open then
    let bs := r.batch_size.getD 0
    let res := r.fillAux (List.replicate bs 0) 0 bs bs
    (some (if r.dynamic_batch then res.1.take res.2.1 else res.1), res.2.2)
  else (none, r)

/-- Result of one `Reader.read()` call: a single frame when
`batch_size is None`, otherwise a batch. -/
inductive ReadResult where
  | frame (f : Frame)
  | batch (b : List Frame)
deriving DecidableEq, Repr

/-- `Reader.read`: dispatch on `_batch_size`. -/
def Reader.read (r : Reader) : Option ReadResult × Reader :=
  match r.batch_size with
  | none =>
    let res := r.read_frame
    (res.1.map ReadResult.frame, res.2)
  | some _ =>
    let res := r.read_batch
    (res.1.map ReadResult.batch, res.2)

/-- `Reader.release`: releases the cv2 handle, touches nothing else. -/
def Reader.release (r : Reader) : Reader :=
  { r with stream := r.stream.release }

/-- Repeatedly call `read()` until it returns the EndMarker `none`
(bounded by fuel), collecting the non-EndMarker results and the final
reader state.  This is the drain protocol of `__iter__`/`__next__`. -/
def Reader.drain : Nat → Reader → List ReadResult × Reader
  | 0, r => ([], r)
  | fuel + 1, r =>
    let res := r.read
    match res.1 with
    | none => ([], res.2)
    | some x =>
      let rest := res.2.drain fuel
      (x :: rest.1, rest.2)

/-- Iterate `read_frame`, keeping only the state. -/
def Reader.iterRead : Nat → Reader → Reader
  | 0, r => r
  | n + 1, r => Reader.iterRead n (r.read_frame).2

/-- A freshly constructed `Reader` over an arbitrary response tape
(metadata fixed to nominal values; `_is_open` starts `True` per
`_initiate_props` and a successful `_update_info`). -/
def mkReaderT (tape : List (Option Frame)) (bs : Option Nat) (dyn : Bool) : Reader :=
  { stream := { tape := tape, opened := true },
    isOpenFlag := true,
    frame_count := 0,
    batch_size := bs,
    dynamic_batch := dyn,
    name := "video.mp4",
    width := 4,
    height := 3,
    fps := 30,
    info := { name := "video.mp4", width := 4, height := 3, fps := 30, backend := "opencv" } }

/-- A freshly constructed `Reader` over a finite well-behaved source of
frames `l`: every read yields the next frame until exhaustion, after
which every read fails (cv2 file semantics). -/
def mkReader (l : List Frame) (bs : Option Nat) (dyn : Bool) : Reader :=
  mkReaderT (l.map some) bs dyn

/-- Overwrite the volatile part of a reader state: response tape of a
finite source, frame counter, `_is_open` flag.  The drain protocol only
moves between states of this shape. -/
def Reader.atState (r : Reader) (l : List Frame) (c : Nat) (flag : Bool) : Reader :=
  { r with stream := { tape := l.map some, opened := true },
           frame_count := c,
           isOpenFlag := flag }

/-- Last index at which character `c` occurs in `cs` (Python
`str.rfind`, as an `Option`). -/
def lastIndexOf (cs : List Char) (c : Char) : Option Nat :=
  match cs with
  | [] => none
  | x :: xs =>
    match lastIndexOf xs c with
    | some j => some (j + 1)
    | none => if x = c then some 0 else none

/-- CPython `posixpath.splitext`: split at the last dot that comes
after the last path separator, unless every character of the basename
before that dot is itself a dot (leading dots do not start an
extension). -/
def splitext (p : String) : String × String :=
  let cs := p.data
  let sepIndex : Int := match lastIndexOf cs '/' with | some j => (j : Int) | none => -1
  let dotIndex : Int := match lastIndexOf cs '.' with | some j => (j : Int) | none => -1
  if sepIndex < dotIndex then
    let d := dotIndex.toNat
    let fstart := (sepIndex + 1).toNat
    if ((cs.drop fstart).take (d - fstart)).any (fun ch => ch ≠ '.') then
      (String.mk (cs.take d), String.mk (cs.drop d))
    else (p, "")
  else (p, "")

/-- The name/width/height/fps a `Writer` can inherit from a `Reader`. -/
structure ReaderProps where
  name : String
  width : Nat
  height : Nat
  fps : Nat
deriving DecidableEq, Repr

/-- Resolved construction properties of a `Writer`
(`Writer._update_props` output). -/
structure WProps where
  name : String
  width : Option Nat
  height : Option Nat
  fps : Option Nat
  ext : String
deriving DecidableEq, Repr

/-- Name resolution of `Writer._update_props`: the explicit `name`
argument overrides the reader-derived default
`{stem}_out{ext}`; with neither, no name is resolved. -/
def resolveName (reader : Option ReaderProps) (name : Option String) : Option String :=
  match name with
  | some n => some n
  | none =>
    match reader with
    | some rd => some ((splitext rd.name).1 ++ "_out" ++ (splitext rd.name).2)
    | none => none

/-- `Writer._update_props`: inherit defaults from the reader, override
with explicit arguments field by field, require a name, resolve the
extension (from the name unless given) and prepend a dot when the
string contains none. -/
def updateProps (reader : Option ReaderProps) (name : Option String)
    (width height fps : Option Nat) (ext : Option String) :
    Except String WProps :=
  let width0 : Option Nat :=
    match width with
    | some w => some w
    | none => reader.map (fun rd => rd.width)
  let height0 : Option Nat :=
    match height with
    | some h => some h
    | none => reader.map (fun rd => rd.height)
  let fps0 : Option Nat :=
    match fps with
    | some f => some f
    | none => reader.map (fun rd => rd.fps)
  match resolveName reader name with
  | none => Except.error "Must provide either Reader or name arg."
  | some nm =>
    let e0 : String := match ext with | some e => e | none => (splitext nm).2
    let e1 : String := if e0.data.contains '.' then e0 else "." ++ e0
    Except.ok { name := nm, width := width0, height := height0, fps := fps0, ext := e1 }

/-- `Writer._EXT_TO_FOURCC`, the static extension-to-codec table. -/
def EXT_TO_FOURCC : List (String × String) :=
  [(".avi", "DIVX"), (".mkv", "X264"), (".mp4", "mp4v")]

/-- `Writer._fourcc`: static table lookup, raising
`NotImplementedError` on an unlisted extension. -/
def fourcc (ext : String) : Except String String :=
  match EXT_TO_FOURCC.lookup ext with
  | none => Except.error ("\x27" ++ ext ++ "\x27is not supported.")
  | some c => Except.ok c

/-- Model of a `cv2.VideoWriter`: the open flag and the frames handed
to the sink so far. -/
structure VideoWriter where
  opened : Bool
  written : List Frame
deriving DecidableEq, Repr

/-- `cv2.VideoWriter.write`. -/
def VideoWriter.write (v : VideoWriter) (f : Frame) : VideoWriter :=
  { v with written := v.written ++ [f] }

/-- `cv2.VideoWriter.release()`. -/
def VideoWriter.release (v : VideoWriter) : VideoWriter :=
  { v with opened := false }

/-- Snapshot dictionary built by `Writer._update_info`. -/
structure WInfo where
  name : String
  width : Option Nat
  height : Option Nat
  fps : Option Nat
  backend : String
  ext : String
deriving DecidableEq, Repr

namespace Vidsz

/-- State of a `vidsz.opencv.Writer` object (namespaced because Mathlib
already has a `Writer`). -/
structure Writer where
  sink : VideoWriter
  frame_count : Nat
  name : String
  width : Option Nat
  height : Option Nat
  fps : Option Nat
  ext : String
  info : WInfo
deriving DecidableEq, Repr

/-- `Writer.is_open`: live poll of the sink handle. -/
def Writer.is_open (w : Writer) : Bool :=
  w.sink.opened

/-- `Writer.write`: raises on a non-open writer (state unchanged),
otherwise forwards the frame and bumps the counter. -/
def Writer.write (w : Writer) (f : Frame) : Except String Unit × Writer :=
  if w.is_open then
    (Except.ok (), { w with sink := w.sink.write f, frame_count := w.frame_count + 1 })
  else
    (Except.error "[Vidsz-Error] Attempted writing with a non-open Writer.", w)

/-- `Writer.release`: releases the cv2 handle, touches nothing else. -/
def Writer.release (w : Writer) : Writer :=
  { w with sink := w.sink.release }

end Vidsz

/-- `Writer.__init__`: resolve properties, resolve the codec (the
`_fourcc()` call is evaluated while building the `cv2.VideoWriter`
arguments, before the sink exists), create the sink — whether it opens
is collaborator behavior, parameter `sinkOpens` — and assert it is
open. -/
def mkWriter (reader : Option ReaderProps) (name : Option String)
    (width height fps : Option Nat) (ext : Option String) (sinkOpens : Bool) :
    Except String Vidsz.Writer :=
  match updateProps reader name width height fps ext with
  | Except.error e => Except.error e
  | Except.ok p =>
    match fourcc p.ext with
    | Except.error e => Except.error e
    | Except.ok _ =>
      if sinkOpens then
        Except.ok
          { sink := { opened := true, written := [] },
            frame_count := 0,
            name := p.name, width := p.width, height := p.height,
            fps := p.fps, ext := p.ext,
            info := { name := p.name, width := p.width, height := p.height,
                      fps := p.fps, backend := "opencv", ext := p.ext } }
      else Except.error "Failed to Create Writer for the given settings."

/-- Successive writes of frames into consecutive slots of a batch,
the cumulative effect of the `batch[i] = frame` assignments of the
fill loop. -/
def writeFrom (batch : List Frame) (i : Nat) : List Frame → List Frame
  | [] => batch
  | f :: fs => writeFrom (batch.set i f) (i + 1) fs

/-- The batch trace the code produces when draining a finite source of
frames `l` in batch mode: full batches while at least `bs` frames
remain, then — because the open flag is still up — one final batch
assembled from the remaining frames (possibly zero of them), padded in
fixed mode and truncated in dynamic mode. -/
def expectedBatches (bs : Nat) (dyn : Bool) (l : List Frame) : List (List Frame) :=
  if h : 0 < bs ∧ bs ≤ l.length then
    l.take bs :: expectedBatches bs dyn (l.drop bs)
  else if dyn then [l] else [l ++ List.replicate (bs - l.length) 0]
termination_by l.length
decreasing_by simp only [List.length_drop]; omega

/-- The success flag of a cv2 read is exactly the presence of the
frame. -/
lemma VideoCapture.read_flag (vc : VideoCapture) :
    (vc.read).1.1 = (vc.read).1.2.isSome := by
  rcases vc with ⟨tape, opened⟩
  cases opened <;> cases tape <;> simp [VideoCapture.read]

/-- Claim C3: in fixed mode (`dynamic_batch = false`), when the reader
still reports open but the single-frame read inside the batch loop
fails on iteration 0 (so zero slots get filled), `read_batch` returns
the full-capacity all-zero batch, not the EndMarker. -/
theorem c3_fixed_mode_zero_fill_batch (r : Reader) (bs : Nat)
    (hopen : r.is_open = true) (hbs : r.batch_size = some bs) (hpos : 0 < bs)
    (hdyn : r.dynamic_batch = false)
    (hfail : (r.stream.read).1.2 = none) :
    (r.read_batch).1 = some (List.replicate bs 0) := by
  obtain ⟨k, rfl⟩ : ∃ k, bs = k + 1 := ⟨bs - 1, (Nat.succ_pred_eq_of_pos hpos).symm⟩
  simp [Reader.read_batch, hopen, hbs, Reader.fillAux, Reader.read_frame, hfail, hdyn]

/-- Witness for C3: a fixed-mode reader over an exhausted source with
`batch_size = 2` yields the batch `[0, 0]`. -/
theorem c3_fixed_mode_zero_fill_batch_witness :
    (mkReaderT [] (some 2) false).is_open = true ∧
    ((mkReaderT [] (some 2) false).stream.read).1.2 = none ∧
    ((mkReaderT [] (some 2) false).read_batch).1 = some (List.replicate 2 0) :=
  ⟨by decide, by decide,
    c3_fixed_mode_zero_fill_batch (mkReaderT [] (some 2) false) 2
      (by decide) rfl (by decide) rfl (by decide)⟩

/-- Claim C4: a single-frame read that obtains a frame returns it and
increments the counter by exactly 1; a read that obtains no frame
returns the EndMarker, leaves the counter unchanged and sets the
internal open flag to false. -/
theorem c4_read_frame_contract (r : Reader) :
    (∀ f : Frame, (r.stream.read).1.2 = some f →
        (r.read_frame).1 = some f ∧ (r.read_frame).2.frame_count = r.frame_count + 1) ∧
    ((r.stream.read).1.2 = none →
        (r.read_frame).1 = none ∧ (r.read_frame).2.frame_count = r.frame_count ∧
        (r.read_frame).2.isOpenFlag = false) := by
  constructor
  · intro f hf
    simp [Reader.read_frame, hf]
  · intro hf
    have hflag := VideoCapture.read_flag r.stream
    rw [hf] at hflag
    simp [Reader.read_frame, hf, hflag]

/-- Witness for C4: both branches evaluated on concrete readers. -/
theorem c4_read_frame_contract_witness :
    ((mkReader [7] none false).stream.read).1.2 = some 7 ∧
    ((mkReader [7] none false).read_frame).1 = some 7 ∧
    ((mkReader [7] none false).read_frame).2.frame_count = 1 ∧
    ((mkReaderT [] none false).stream.read).1.2 = none ∧
    ((mkReaderT [] none false).read_frame).1 = none ∧
    ((mkReaderT [] none false).read_frame).2.frame_count = 0 ∧
    ((mkReaderT [] none false).read_frame).2.isOpenFlag = false := by
  refine ⟨by decide, ?_, ?_, by decide, ?_, ?_, ?_⟩
  · exact ((c4_read_frame_contract (mkReader [7] none false)).1 7 (by decide)).1
  · exact ((c4_read_frame_contract (mkReader [7] none false)).1 7 (by decide)).2
  · exact ((c4_read_frame_contract (mkReaderT [] none false)).2 (by decide)).1
  · exact ((c4_read_frame_contract (mkReaderT [] none false)).2 (by decide)).2.1
  · exact ((c4_read_frame_contract (mkReaderT [] none false)).2 (by decide)).2.2

/-- Counterexample to claim C5 as stated: after one failed read
`is_open()` is false, but a subsequent read for which the underlying
source reports success flips it back to true — the flag is the status
of the most recent read, not a latch. -/
theorem c5_latch_counterexample :
    ((mkReaderT [none, some 5] none false).read_frame).2.is_open = false ∧
    (((mkReaderT [none, some 5] none false).read_frame).2.read_frame).2.is_open = true := by
  decide

lemma read_frame_allNone (r : Reader) (h : ∀ x ∈ r.stream.tape, x = none) :
    (∀ x ∈ (r.read_frame).2.stream.tape, x = none) ∧ (r.read_frame).2.isOpenFlag = false := by
  rcases r with ⟨⟨tape, opened⟩, flag, c, bs, dyn, nm, wd, ht, fp, inf⟩
  cases opened <;> cases tape <;> simp_all [Reader.read_frame, VideoCapture.read] <;>
    exact h.2

/-- Claim C5 amended: the open flag records the outcome of the most
recent read, and once false it stays false across any number of
further reads as long as the source yields no frame — in particular
forever on an exhausted finite source.  (A later successful underlying
read would reset it, per the counterexample.) -/
theorem c5_open_flag_tracks_last_read (r : Reader) :
    ((r.read_frame).2.isOpenFlag = (r.stream.read).1.1) ∧
    ((∀ x ∈ r.stream.tape, x = none) → r.isOpenFlag = false →
      ∀ n, (Reader.iterRead n r).is_open = false) := by
  constructor
  · rfl
  · intro htape hflag n
    induction n generalizing r with
    | zero => simp [Reader.iterRead, Reader.is_open, hflag]
    | succ n ih =>
      have h2 := read_frame_allNone r htape
      exact ih (r.read_frame).2 h2.1 h2.2

/-- Witness for the amended C5: with the open flag down and a source
that keeps failing, two more reads leave `is_open()` false. -/
theorem c5_open_flag_tracks_last_read_witness :
    (∀ x ∈ ({ mkReaderT [none, none] none false with isOpenFlag := false } : Reader).stream.tape,
      x = none) ∧
    (Reader.iterRead 2
      ({ mkReaderT [none, none] none false with isOpenFlag := false } : Reader)).is_open = false :=
  ⟨by decide,
    (c5_open_flag_tracks_last_read
      ({ mkReaderT [none, none] none false with isOpenFlag := false } : Reader)).2
      (by decide) rfl 2⟩

/-- Claim C7: writing through a released Writer raises the stable
error message and leaves the write counter unchanged, while reading
from a released Reader returns the EndMarker without raising. -/
theorem c7_write_fails_loud_read_degrades_soft (w : Vidsz.Writer) (f : Frame) (r : Reader) :
    w.release.write f =
      (Except.error "[Vidsz-Error] Attempted writing with a non-open Writer.", w.release) ∧
    (w.release.write f).2.frame_count = w.frame_count ∧
    (r.release.read).1 = none := by
  refine ⟨by simp [Vidsz.Writer.write, Vidsz.Writer.release, Vidsz.Writer.is_open,
    VideoWriter.release], by simp [Vidsz.Writer.write, Vidsz.Writer.release,
    Vidsz.Writer.is_open, VideoWriter.release], ?_⟩
  cases hbs : r.batch_size <;>
    simp [Reader.read, hbs, Reader.read_frame, Reader.read_batch, Reader.release,
      VideoCapture.release, VideoCapture.read, Reader.is_open]

/-- Claim C8: a Writer construction whose resolved extension has no
entry in the static codec table fails with the unsupported-format
error, for either outcome of sink creation — i.e. at construction,
before any write can exist. -/
theorem c8_unsupported_extension_fails_at_construction
    (reader : Option ReaderProps) (name : Option String)
    (width height fps : Option Nat) (ext : Option String) (sinkOpens : Bool) (p : WProps)
    (hok : updateProps reader name width height fps ext = Except.ok p)
    (hbad : EXT_TO_FOURCC.lookup p.ext = none) :
    mkWriter reader name width height fps ext sinkOpens =
      Except.error ("\x27" ++ p.ext ++ "\x27is not supported.") := by
  unfold mkWriter
  rw [hok]
  simp [fourcc, hbad]

/-- Witness for C8: constructing with name `out.xyz` resolves the
extension `.xyz`, which is not in the table, and fails. -/
theorem c8_unsupported_extension_fails_at_construction_witness :
    updateProps none (some "out.xyz") none none none none =
      Except.ok { name := "out.xyz", width := none, height := none, fps := none, ext := ".xyz" } ∧
    EXT_TO_FOURCC.lookup ".xyz" = none ∧
    mkWriter none (some "out.xyz") none none none none true =
      Except.error ("\x27" ++ ".xyz" ++ "\x27is not supported.") :=
  ⟨by rfl, by rfl,
    c8_unsupported_extension_fails_at_construction none (some "out.xyz") none none none none true
      { name := "out.xyz", width := none, height := none, fps := none, ext := ".xyz" }
      (by rfl) (by rfl)⟩

/-- Claim C9: `release()` is idempotent on both Reader and Writer and
leaves the frame counter and every property accessor (name, width,
height, fps, info) unchanged. -/
theorem c9_release_idempotent_preserves_props (r : Reader) (w : Vidsz.Writer) :
    r.release.release = r.release ∧
    r.release.frame_count = r.frame_count ∧ r.release.name = r.name ∧
    r.release.width = r.width ∧ r.release.height = r.height ∧
    r.release.fps = r.fps ∧ r.release.info = r.info ∧
    w.release.release = w.release ∧
    w.release.frame_count = w.frame_count ∧ w.release.name = w.name ∧
    w.release.width = w.width ∧ w.release.height = w.height ∧
    w.release.fps = w.fps ∧ w.release.info = w.info :=
  ⟨rfl, rfl, rfl, rfl, rfl, rfl, rfl, rfl, rfl, rfl, rfl, rfl, rfl, rfl⟩

/-- Claim C10: when the resolved extension string — the explicit `ext`
argument, or the extension split from the resolved output name when no
`ext` is given — contains no dot, a dot is prepended before codec
lookup; in particular construction with `ext = "mp4"` is identical to
construction with `ext = ".mp4"`. -/
theorem c10_dot_prepended_to_extension :
    (∀ (reader : Option ReaderProps) (name : Option String)
        (width height fps : Option Nat) (e : String) (p : WProps),
        e.data.contains '.' = false →
        updateProps reader name width height fps (some e) = Except.ok p →
        p.ext = "." ++ e) ∧
    (∀ (reader : Option ReaderProps) (name : Option String)
        (width height fps : Option Nat) (nm : String) (p : WProps),
        resolveName reader name = some nm →
        ((splitext nm).2).data.contains '.' = false →
        updateProps reader name width height fps none = Except.ok p →
        p.ext = "." ++ (splitext nm).2) ∧
    (∀ (reader : Option ReaderProps) (name : Option String)
        (width height fps : Option Nat) (sinkOpens : Bool),
        mkWriter reader name width height fps (some "mp4") sinkOpens =
          mkWriter reader name width height fps (some ".mp4") sinkOpens) := by
  refine ⟨?_, ?_, ?_⟩
  · intro reader name width height fps e p hdot hok
    unfold updateProps at hok
    cases hn : resolveName reader name with
    | none => rw [hn] at hok; exact absurd hok (by simp)
    | some nm =>
      rw [hn] at hok
      simp only [hdot, Bool.false_eq_true, if_false] at hok
      cases hok
      rfl
  · intro reader name width height fps nm p hn hdot hok
    unfold updateProps at hok
    rw [hn] at hok
    simp only [hdot, Bool.false_eq_true, if_false] at hok
    cases hok
    rfl
  · intro reader name width height fps sinkOpens
    have h1 : ("mp4" : String).data.contains '.' = false := by decide
    have h2 : (".mp4" : String).data.contains '.' = true := by decide
    unfold mkWriter updateProps
    cases hn : resolveName reader name <;> simp [h1, h2]

/-- Witness for C10: `ext = "mp4"` resolves to `.mp4` and the two
constructions agree; with no `ext` and the dotless name `"out"`,
`splitext` yields the dotless extension `""` and construction resolves
it to `"."`. -/
theorem c10_dot_prepended_to_extension_witness :
    ("mp4" : String).data.contains '.' = false ∧
    updateProps none (some "out") none none none (some "mp4") =
      Except.ok { name := "out", width := none, height := none, fps := none, ext := ".mp4" } ∧
    ({ name := "out", width := none, height := none, fps := none, ext := ".mp4" } : WProps).ext =
      "." ++ "mp4" ∧
    resolveName none (some "out") = some "out" ∧
    ((splitext "out").2).data.contains '.' = false ∧
    updateProps none (some "out") none none none none =
      Except.ok { name := "out", width := none, height := none, fps := none, ext := "." } ∧
    ({ name := "out", width := none, height := none, fps := none, ext := "." } : WProps).ext =
      "." ++ (splitext "out").2 ∧
    mkWriter none (some "out") none none none (some "mp4") true =
      mkWriter none (some "out") none none none (some ".mp4") true :=
  ⟨by decide, by rfl,
    (c10_dot_prepended_to_extension.1 none (some "out") none none none "mp4"
      { name := "out", width := none, height := none, fps := none, ext := ".mp4" }
      (by decide) (by rfl)),
    by rfl, by decide, by rfl,
    (c10_dot_prepended_to_extension.2.1 none (some "out") none none none "out"
      { name := "out", width := none, height := none, fps := none, ext := "." }
      (by rfl) (by decide) (by rfl)),
    (c10_dot_prepended_to_extension.2.2 none (some "out") none none none true)⟩

lemma writeFrom_acc : ∀ (xs pre : List Frame) (n : Nat), pre.length + xs.length ≤ n →
    writeFrom (pre ++ List.replicate (n - pre.length) 0) pre.length xs
      = (pre ++ xs) ++ List.replicate (n - pre.length - xs.length) 0 := by
  intro xs
  induction xs with
  | nil => intro pre n h; simp [writeFrom]
  | cons f fs ih =>
    intro pre n h
    have hrep : n - pre.length = (n - (pre.length + 1)) + 1 := by
      simp at h; omega
    rw [writeFrom, hrep, List.replicate_succ]
    have hset : (pre ++ 0 :: List.replicate (n - (pre.length + 1)) 0).set pre.length f
        = (pre ++ [f]) ++ List.replicate (n - (pre ++ [f]).length) 0 := by
      rw [List.set_eq_take_cons_drop f (by simp)]
      simp
    rw [hset]
    have h' : pre.length + 1 + fs.length ≤ n := by
      simp only [List.length_cons] at h; omega
    have H := ih (pre ++ [f]) n (by simpa using h')
    simp only [List.length_append, List.length_cons, List.length_nil, Nat.zero_add,
      List.append_assoc, List.singleton_append] at H ⊢
    rw [H]
    have hAB : n - (pre.length + 1) - fs.length = n - (pre.length + 1) + 1 - (fs.length + 1) := by
      omega
    rw [hAB]

lemma writeFrom_replicate (xs : List Frame) (n : Nat) (h : xs.length ≤ n) :
    writeFrom (List.replicate n 0) 0 xs = xs ++ List.replicate (n - xs.length) 0 := by
  have := writeFrom_acc xs [] n (by simpa using h)
  simpa using this

lemma fill_exact : ∀ (l : List Frame) (t : List (Option Frame)) (r : Reader)
    (batch : List Frame) (i bs : Nat),
    r.stream.opened = true → r.isOpenFlag = true →
    r.stream.tape = l.map some ++ t → i + l.length = bs →
    r.fillAux batch i bs (bs - i)
      = (writeFrom batch i l, bs,
         { r with stream := { tape := t, opened := true },
                  frame_count := r.frame_count + l.length,
                  isOpenFlag := true }) := by
  intro l
  induction l with
  | nil =>
    intro t r batch i bs hop hflag htape hlen
    simp only [List.length_nil, Nat.add_zero] at hlen
    subst hlen
    rw [Nat.sub_self]
    rcases r with ⟨⟨tape, opened⟩, flag, c, bsz, dyn, nm, wd, ht, fp, inf⟩
    simp only at hop hflag htape
    subst hop; subst hflag
    simp only [List.map_nil, List.nil_append] at htape
    subst htape
    simp [Reader.fillAux, writeFrom]
  | cons f fs ih =>
    intro t r batch i bs hop hflag htape hlen
    have hk : bs - i = (bs - (i + 1)) + 1 := by
      simp only [List.length_cons] at hlen; omega
    rw [hk]
    rcases r with ⟨⟨tape, opened⟩, flag, c, bsz, dyn, nm, wd, ht, fp, inf⟩
    simp only at hop hflag htape
    subst hop; subst hflag
    simp only [List.map_cons, List.cons_append] at htape
    subst htape
    simp only [Reader.fillAux, Reader.read_frame, VideoCapture.read, if_true,
      Option.isSome_some]
    rw [ih t _ (batch.set i f) (i + 1) bs rfl rfl rfl
      (by simp only [List.length_cons] at hlen ⊢; omega)]
    simp only [writeFrom, List.length_cons]
    have harith : c + 1 + fs.length = c + (fs.length + 1) := by omega
    rw [harith]

lemma fill_short : ∀ (l : List Frame) (r : Reader) (batch : List Frame) (i bs : Nat),
    r.stream.opened = true → r.stream.tape = l.map some → i + l.length < bs →
    r.fillAux batch i bs (bs - i)
      = (writeFrom batch i l, i + l.length,
         { r with stream := { tape := [], opened := true },
                  frame_count := r.frame_count + l.length,
                  isOpenFlag := false }) := by
  intro l
  induction l with
  | nil =>
    intro r batch i bs hop htape hlen
    simp only [List.length_nil, Nat.add_zero] at hlen ⊢
    have hk : bs - i = (bs - (i + 1)) + 1 := by omega
    rw [hk]
    rcases r with ⟨⟨tape, opened⟩, flag, c, bsz, dyn, nm, wd, ht, fp, inf⟩
    simp only at hop htape
    subst hop
    simp only [List.map_nil] at htape
    subst htape
    simp [Reader.fillAux, Reader.read_frame, VideoCapture.read, writeFrom]
  | cons f fs ih =>
    intro r batch i bs hop htape hlen
    have hk : bs - i = (bs - (i + 1)) + 1 := by
      simp only [List.length_cons] at hlen; omega
    rw [hk]
    rcases r with ⟨⟨tape, opened⟩, flag, c, bsz, dyn, nm, wd, ht, fp, inf⟩
    simp only at hop htape
    subst hop
    simp only [List.map_cons] at htape
    subst htape
    simp only [Reader.fillAux, Reader.read_frame, VideoCapture.read, if_true,
      Option.isSome_some]
    rw [ih _ (batch.set i f) (i + 1) bs rfl rfl
      (by simp only [List.length_cons] at hlen ⊢; omega)]
    simp only [writeFrom, List.length_cons]
    have harith1 : c + 1 + fs.length = c + (fs.length + 1) := by omega
    have harith2 : i + 1 + fs.length = i + (fs.length + 1) := by omega
    rw [harith1, harith2]

lemma read_batch_full (r : Reader) (l : List Frame) (c bs : Nat)
    (hbs : r.batch_size = some bs) (hle : bs ≤ l.length) :
    (r.atState l c true).read_batch
      = (some (l.take bs), r.atState (l.drop bs) (c + bs) true) := by
  have htk : (l.take bs).length = bs := by simp [List.length_take]; omega
  have H := fill_exact (l.take bs) ((l.drop bs).map some) (r.atState l c true)
      (List.replicate bs 0) 0 bs rfl rfl
      (by show l.map some = _; rw [← List.map_append, List.take_append_drop])
      (by simpa using htk)
  rw [Nat.sub_zero] at H
  unfold Reader.read_batch
  have hbs' : (r.atState l c true).batch_size = some bs := hbs
  have hopen : (r.atState l c true).is_open = true := rfl
  simp only [hopen, if_true, hbs', Option.getD_some]
  rw [H]
  rw [writeFrom_replicate _ _ (le_of_eq htk)]
  rw [htk, Nat.sub_self, List.replicate_zero, List.append_nil]
  simp [List.take_take, Reader.atState, htk]

lemma read_batch_short (r : Reader) (l : List Frame) (c bs : Nat)
    (hbs : r.batch_size = some bs) (hlt : l.length < bs) :
    (r.atState l c true).read_batch
      = (some (if r.dynamic_batch then l else l ++ List.replicate (bs - l.length) 0),
         r.atState [] (c + l.length) false) := by
  have H := fill_short l (r.atState l c true) (List.replicate bs 0) 0 bs rfl rfl
    (by simpa using hlt)
  rw [Nat.sub_zero] at H
  unfold Reader.read_batch
  have hbs' : (r.atState l c true).batch_size = some bs := hbs
  have hopen : (r.atState l c true).is_open = true := rfl
  simp only [hopen, if_true, hbs', Option.getD_some]
  rw [H]
  rw [writeFrom_replicate _ _ (le_of_lt hlt)]
  have hdyn' : (r.atState l c true).dynamic_batch = r.dynamic_batch := rfl
  cases hdyn : r.dynamic_batch <;>
    simp [hdyn', hdyn, Reader.atState, List.take_left' rfl]

lemma read_batch_closed (r : Reader) (l : List Frame) (c : Nat) :
    (r.atState l c false).read_batch = (none, r.atState l c false) := by
  unfold Reader.read_batch
  have hopen : (r.atState l c false).is_open = false := by
    simp [Reader.atState, Reader.is_open]
  rw [hopen]
  simp

lemma drain_closed (r : Reader) (l : List Frame) (c : Nat) (bs : Nat)
    (hbs : r.batch_size = some bs) :
    ∀ fuel, Reader.drain fuel (r.atState l c false) = ([], r.atState l c false) := by
  intro fuel
  cases fuel with
  | zero => rfl
  | succ n =>
    simp only [Reader.drain, Reader.read]
    have hbs' : (r.atState l c false).batch_size = some bs := hbs
    rw [hbs']
    rw [read_batch_closed]
    simp

lemma drain_batch_spec : ∀ (n : Nat) (bs : Nat) (l : List Frame), l.length = n →
    ∀ (r : Reader) (c fuel : Nat),
    r.batch_size = some bs → 0 < bs → n + 1 ≤ fuel →
    Reader.drain fuel (r.atState l c true)
      = ((expectedBatches bs r.dynamic_batch l).map ReadResult.batch,
         r.atState [] (c + n) false) := by
  intro n
  induction n using Nat.strong_induction_on with
  | _ n ih =>
    intro bs l hlen r c fuel hbs hpos hfuel
    obtain ⟨fuel', rfl⟩ : ∃ f, fuel = f + 1 := ⟨fuel - 1, by omega⟩
    by_cases hle : bs ≤ l.length
    · -- a full batch is emitted and the state stays open
      rw [expectedBatches]
      rw [dif_pos ⟨hpos, hle⟩]
      simp only [Reader.drain, Reader.read]
      have hbs' : (r.atState l c true).batch_size = some bs := hbs
      rw [hbs']
      rw [read_batch_full r l c bs hbs hle]
      simp only [Option.map_some]
      rw [ih (n - bs) (by omega) bs (l.drop bs) (by simp [hlen]) r (c + bs) fuel' hbs hpos
        (by omega)]
      simp only [Option.map_some, Option.map_some', List.map_cons]
      have harith : c + bs + (n - bs) = c + n := by omega
      rw [harith]
    · -- fewer than bs frames remain: final batch, state closes
      rw [expectedBatches]
      rw [dif_neg (by omega)]
      simp only [Reader.drain, Reader.read]
      have hbs' : (r.atState l c true).batch_size = some bs := hbs
      rw [hbs']
      rw [read_batch_short r l c bs hbs (by omega)]
      simp only [Option.map_some]
      rw [drain_closed r [] (c + l.length) bs hbs fuel']
      cases hdyn : r.dynamic_batch <;> simp [hlen]

lemma drain_frame_spec : ∀ (l : List Frame) (r : Reader) (c fuel : Nat),
    r.batch_size = none → l.length + 1 ≤ fuel →
    Reader.drain fuel (r.atState l c true)
      = (l.map ReadResult.frame, r.atState [] (c + l.length) false) := by
  intro l
  induction l with
  | nil =>
    intro r c fuel hbs hfuel
    obtain ⟨fuel', rfl⟩ : ∃ f, fuel = f + 1 := ⟨fuel - 1, by omega⟩
    simp only [Reader.drain, Reader.read]
    rw [show (r.atState [] c true).batch_size = none from hbs]
    simp [Reader.read_frame, Reader.atState, VideoCapture.read]
  | cons f fs ih =>
    intro r c fuel hbs hfuel
    obtain ⟨fuel', rfl⟩ : ∃ f, fuel = f + 1 := ⟨fuel - 1, by omega⟩
    simp only [Reader.drain, Reader.read]
    rw [show (r.atState (f :: fs) c true).batch_size = none from hbs]
    have hrf : (r.atState (f :: fs) c true).read_frame
        = (some f, r.atState fs (c + 1) true) := rfl
    rw [hrf]
    simp only [Option.map_some, Option.map_some']
    rw [ih r (c + 1) fuel' hbs (by simp only [List.length_cons] at hfuel ⊢; omega)]
    simp only [List.map_cons, List.length_cons]
    have harith : c + 1 + fs.length = c + (fs.length + 1) := by omega
    rw [harith]

lemma expectedBatches_ne_nil_mem (bs : Nat) : ∀ (n : Nat) (l : List Frame), l.length = n →
    0 < bs → ¬ bs ∣ l.length →
    ∀ b ∈ expectedBatches bs true l, b ≠ [] := by
  intro n
  induction n using Nat.strong_induction_on with
  | _ n ih =>
    intro l hlen hpos hndvd b hb
    rw [expectedBatches] at hb
    by_cases hle : bs ≤ l.length
    · rw [dif_pos ⟨hpos, hle⟩] at hb
      rcases List.mem_cons.mp hb with h | h
      · subst h
        have : l ≠ [] := by
          intro h0
          rw [h0] at hle
          simp at hle
          omega
        simp only [ne_eq, List.take_eq_nil_iff, not_or]
        exact ⟨by omega, this⟩
      · refine ih (n - bs) (by omega) (l.drop bs) (by simp [hlen]) hpos ?_ b h
        intro hd
        apply hndvd
        have : l.length - bs + bs = l.length := by omega
        rw [← this]
        simp only [List.length_drop] at hd
        exact Nat.dvd_add hd dvd_rfl
    · rw [dif_neg (by omega)] at hb
      simp only [if_true, List.mem_singleton] at hb
      subst hb
      intro h0
      apply hndvd
      rw [h0]
      simp

lemma expectedBatches_length (bs : Nat) (dyn : Bool) : ∀ (n : Nat) (l : List Frame),
    l.length = n → 0 < bs →
    (expectedBatches bs dyn l).length
      = (if bs ∣ l.length then l.length / bs + 1 else (l.length + bs - 1) / bs) := by
  intro n
  induction n using Nat.strong_induction_on with
  | _ n ih =>
    intro l hlen hpos
    rw [expectedBatches]
    by_cases hle : bs ≤ l.length
    · rw [dif_pos ⟨hpos, hle⟩]
      simp only [List.length_cons]
      rw [ih (n - bs) (by omega) (l.drop bs) (by simp [hlen]) hpos]
      simp only [List.length_drop]
      have hdvd : (bs ∣ l.length - bs) ↔ (bs ∣ l.length) := by
        constructor
        · intro h
          have heq : l.length - bs + bs = l.length := by omega
          rw [← heq]
          exact Nat.dvd_add h dvd_rfl
        · intro h
          exact Nat.dvd_sub' h dvd_rfl
      have hdiv : l.length / bs = (l.length - bs) / bs + 1 :=
        Nat.div_eq_sub_div hpos hle
      by_cases hd : bs ∣ l.length
      · rw [if_pos (hdvd.mpr hd), if_pos hd, hdiv]
      · rw [if_neg (fun h => hd (hdvd.mp h)), if_neg hd]
        have h1 : l.length - bs + bs - 1 = l.length - 1 := by omega
        have h2 : l.length + bs - 1 = (l.length - 1) + bs := by omega
        rw [h1, h2, Nat.add_div_right _ hpos]
    · rw [dif_neg (by omega)]
      have hlt : l.length < bs := by omega
      by_cases hd : bs ∣ l.length
      · have h0 : l.length = 0 := Nat.eq_zero_of_dvd_of_lt hd hlt
        rw [if_pos hd, h0]
        cases dyn <;> simp
      · rw [if_neg hd]
        have hpos' : 0 < l.length := by
          rcases Nat.eq_zero_or_pos l.length with h | h
          · exact absurd (h ▸ dvd_zero bs) hd
          · exact h
        have hone : (l.length + bs - 1) / bs = 1 := by
          apply Nat.div_eq_of_lt_le
          · omega
          · omega
        cases dyn <;> simp [hone]

lemma expectedBatches_self_ne_nil (bs : Nat) (dyn : Bool) (l : List Frame) :
    expectedBatches bs dyn l ≠ [] := by
  rw [expectedBatches]
  split
  · simp
  · split <;> simp

lemma getLast?_cons_of_ne_nil {α : Type} (a : α) {l : List α} (h : l ≠ []) :
    (a :: l).getLast? = l.getLast? := by
  cases l with
  | nil => exact absurd rfl h
  | cons b t => exact List.getLast?_cons_cons

lemma expectedBatches_getLast (bs : Nat) : ∀ (n : Nat) (l : List Frame),
    l.length = n → 0 < bs →
    (expectedBatches bs false l).getLast?
      = some (if bs ∣ l.length then List.replicate bs 0
              else l.drop (bs * (l.length / bs)) ++ List.replicate (bs - l.length % bs) 0) := by
  intro n
  induction n using Nat.strong_induction_on with
  | _ n ih =>
    intro l hlen hpos
    rw [expectedBatches]
    by_cases hle : bs ≤ l.length
    · rw [dif_pos ⟨hpos, hle⟩]
      rw [getLast?_cons_of_ne_nil _ (expectedBatches_self_ne_nil bs false (l.drop bs))]
      rw [ih (n - bs) (by omega) (l.drop bs) (by simp [hlen]) hpos]
      simp only [List.length_drop]
      have hdvd : (bs ∣ l.length - bs) ↔ (bs ∣ l.length) := by
        constructor
        · intro h
          have heq : l.length - bs + bs = l.length := by omega
          rw [← heq]
          exact Nat.dvd_add h dvd_rfl
        · intro h
          exact Nat.dvd_sub' h dvd_rfl
      by_cases hd : bs ∣ l.length
      · rw [if_pos (hdvd.mpr hd), if_pos hd]
      · rw [if_neg (fun h => hd (hdvd.mp h)), if_neg hd]
        have hdiv : l.length / bs = (l.length - bs) / bs + 1 :=
          Nat.div_eq_sub_div hpos hle
        have hmod : (l.length - bs) % bs = l.length % bs :=
          (Nat.mod_eq_sub_mod hle).symm
        rw [List.drop_drop, hmod, hdiv]
        have harith : bs + bs * ((l.length - bs) / bs) = bs * ((l.length - bs) / bs + 1) := by
          ring
        rw [harith]
    · rw [dif_neg (by omega)]
      have hlt : l.length < bs := by omega
      simp only [Bool.false_eq_true, if_false, List.getLast?_singleton]
      by_cases hd : bs ∣ l.length
      · have h0 : l.length = 0 := Nat.eq_zero_of_dvd_of_lt hd hlt
        have hnil : l = [] := List.length_eq_zero.mp h0
        rw [if_pos hd, hnil]
        simp
      · rw [if_neg hd]
        have hdiv0 : l.length / bs = 0 := Nat.div_eq_of_lt hlt
        have hmod0 : l.length % bs = l.length := Nat.mod_eq_of_lt hlt
        rw [hdiv0, hmod0]
        simp

/-- Claim C1 amended: over a finite source whose frame count is not a
multiple of `batch_size`, a dynamic-batch drain never emits a
zero-length batch.  (When `batch_size` divides the frame count the code
does emit one empty batch, per the counterexample.) -/
theorem c1_dynamic_batches_nonempty (l : List Frame) (bs fuel : Nat) (hpos : 0 < bs)
    (hndvd : ¬ bs ∣ l.length) (hfuel : l.length + 1 ≤ fuel) :
    ∀ b, ReadResult.batch b ∈ (Reader.drain fuel (mkReader l (some bs) true)).1 → b ≠ [] := by
  intro b hb
  have key := drain_batch_spec l.length bs l rfl (mkReader l (some bs) true) 0 fuel rfl hpos hfuel
  rw [show (mkReader l (some bs) true).atState l 0 true = mkReader l (some bs) true from rfl] at key
  rw [key] at hb
  simp only [List.mem_map] at hb
  obtain ⟨b', hb', heq⟩ := hb
  injection heq with h
  subst h
  exact expectedBatches_ne_nil_mem bs l.length l rfl hpos hndvd b' hb'

/-- Counterexample to claim C1 as stated: a dynamic-batch reader over a
1-frame source with `batch_size = 1` (so N > 0 and the source is
exhausted exactly at a batch boundary) emits a second non-EndMarker
batch of length 0 instead of returning the EndMarker. -/
theorem c1_empty_batch_counterexample :
    (Reader.drain 3 (mkReader [5] (some 1) true)).1
      = [ReadResult.batch [5], ReadResult.batch []] := by decide

/-- Claim C2 amended: draining a fixed-mode reader over `l` yields
`ceil(N / bs)` non-EndMarker batches when `bs` does not divide `N`, but
`N / bs + 1` batches when it does; the final batch consists of the last
`N mod bs` source frames followed by zero slots in the non-dividing
case, and is entirely zero-filled in the dividing case. -/
theorem c2_fixed_mode_batch_count_and_final_batch (l : List Frame) (bs fuel : Nat) (hpos : 0 < bs) (_hne : l ≠ [])
    (hfuel : l.length + 1 ≤ fuel) :
    ((Reader.drain fuel (mkReader l (some bs) false)).1.length
        = (if bs ∣ l.length then l.length / bs + 1 else (l.length + bs - 1) / bs)) ∧
    ((Reader.drain fuel (mkReader l (some bs) false)).1.getLast?
        = some (ReadResult.batch (if bs ∣ l.length then List.replicate bs 0
            else l.drop (bs * (l.length / bs)) ++ List.replicate (bs - l.length % bs) 0))) := by
  have key := drain_batch_spec l.length bs l rfl (mkReader l (some bs) false) 0 fuel rfl hpos hfuel
  rw [show (mkReader l (some bs) false).atState l 0 true = mkReader l (some bs) false from rfl]
    at key
  rw [key]
  simp only [show (mkReader l (some bs) false).dynamic_batch = false from rfl]
  constructor
  · simp only [List.length_map]
    exact expectedBatches_length bs false l.length l rfl hpos
  · simp only [List.getLast?_map]
    rw [expectedBatches_getLast bs l.length l rfl hpos]
    rfl

/-- Counterexample to claim C2 as stated: a fixed-mode reader over a
1-frame source with `batch_size = 1` yields 2 non-EndMarker batches
while `ceil(1 / 1) = 1`, and its final batch is the zero batch `[0]`
rather than one holding the source frame. -/
theorem c2_batch_count_counterexample :
    ((Reader.drain 3 (mkReader [5] (some 1) false)).1.length = 2) ∧
    (((1 : Nat) + 1 - 1) / 1 = 1) ∧
    ((Reader.drain 3 (mkReader [5] (some 1) false)).1.getLast? = some (ReadResult.batch [0])) := by
  decide

/-- Claim C6: after fully draining a reader over a finite source of
frames `l` — unbatched, fixed-mode batched, or dynamic-mode batched —
the frame counter equals the source length. -/
theorem c6_frame_count_after_drain (l : List Frame) (bs fuel : Nat) (hpos : 0 < bs)
    (hfuel : l.length + 1 ≤ fuel) :
    ((Reader.drain fuel (mkReader l none false)).2.frame_count = l.length) ∧
    ((Reader.drain fuel (mkReader l (some bs) false)).2.frame_count = l.length) ∧
    ((Reader.drain fuel (mkReader l (some bs) true)).2.frame_count = l.length) := by
  refine ⟨?_, ?_, ?_⟩
  · have key := drain_frame_spec l (mkReader l none false) 0 fuel rfl hfuel
    rw [show (mkReader l none false).atState l 0 true = mkReader l none false from rfl] at key
    rw [key]
    simp [Reader.atState]
  · have key := drain_batch_spec l.length bs l rfl (mkReader l (some bs) false) 0 fuel rfl hpos
      hfuel
    rw [show (mkReader l (some bs) false).atState l 0 true = mkReader l (some bs) false from rfl]
      at key
    rw [key]
    simp [Reader.atState]
  · have key := drain_batch_spec l.length bs l rfl (mkReader l (some bs) true) 0 fuel rfl hpos
      hfuel
    rw [show (mkReader l (some bs) true).atState l 0 true = mkReader l (some bs) true from rfl]
      at key
    rw [key]
    simp [Reader.atState]

/-- Witness for the amended C1: a 3-frame source with `batch_size = 2`
in dynamic mode; the batch `[7]` appears in the trace and is
nonempty. -/
theorem c1_dynamic_batches_nonempty_witness :
    (0 < 2) ∧ (¬ (2 ∣ 3)) ∧ (3 + 1 ≤ 5) ∧
    (ReadResult.batch [7] ∈ (Reader.drain 5 (mkReader [5, 6, 7] (some 2) true)).1) ∧
    ([7] ≠ ([] : List Frame)) :=
  ⟨by decide, by decide, by decide, by decide,
    c1_dynamic_batches_nonempty [5, 6, 7] 2 5 (by decide) (by decide) (by decide) [7]
      (by decide)⟩

/-- Witness for the amended C2: a 3-frame source with `batch_size = 2`
in fixed mode yields 2 batches and final batch `[7, 0]`. -/
theorem c2_fixed_mode_batch_count_and_final_batch_witness :
    (0 < 2) ∧ (([5, 6, 7] : List Frame) ≠ []) ∧ (3 + 1 ≤ 5) ∧
    ((Reader.drain 5 (mkReader [5, 6, 7] (some 2) false)).1.length
        = (if 2 ∣ ([5, 6, 7] : List Frame).length then ([5, 6, 7] : List Frame).length / 2 + 1
           else (([5, 6, 7] : List Frame).length + 2 - 1) / 2)) ∧
    ((Reader.drain 5 (mkReader [5, 6, 7] (some 2) false)).1.getLast?
        = some (ReadResult.batch
            (if 2 ∣ ([5, 6, 7] : List Frame).length then List.replicate 2 0
             else ([5, 6, 7] : List Frame).drop (2 * (([5, 6, 7] : List Frame).length / 2))
               ++ List.replicate (2 - ([5, 6, 7] : List Frame).length % 2) 0))) :=
  ⟨by decide, by decide, by decide,
    (c2_fixed_mode_batch_count_and_final_batch [5, 6, 7] 2 5 (by decide) (by decide)
      (by decide)).1,
    (c2_fixed_mode_batch_count_and_final_batch [5, 6, 7] 2 5 (by decide) (by decide)
      (by decide)).2⟩

/-- Witness for C6: a 3-frame source drained in all three
configurations leaves the counter at 3. -/
theorem c6_frame_count_after_drain_witness :
    (0 < 2) ∧ (3 + 1 ≤ 5) ∧
    ((Reader.drain 5 (mkReader [5, 6, 7] none false)).2.frame_count = 3) ∧
    ((Reader.drain 5 (mkReader [5, 6, 7] (some 2) false)).2.frame_count = 3) ∧
    ((Reader.drain 5 (mkReader [5, 6, 7] (some 2) true)).2.frame_count = 3) :=
  ⟨by decide, by decide,
    (c6_frame_count_after_drain [5, 6, 7] 2 5 (by decide) (by decide)).1,
    (c6_frame_count_after_drain [5, 6, 7] 2 5 (by decide) (by decide)).2.1,
    (c6_frame_count_after_drain [5, 6, 7] 2 5 (by decide) (by decide)).2.2⟩

